import Mathlib

/-!
Verification development for the law-parsing, rule-enforcement and
sandboxed-execution core of the politicGame repository.

The Lean definitions below are a shallow embedding of the Python sources
`app/law_parser.py` and `app/law_system.py`.  Pure Python functions become
Lean functions; the two unbounded loops of `StructuralParser.parse` are
embedded with an explicit fuel parameter (a `none` answer means the fuel ran
out, and an answer that is `none` for every fuel means the source loop does
not terminate); Python exceptions become `Option`/`Except` values.
-/

namespace PoliticGame

/-! ## Tokens (law_parser.py, TokenType and Token) -/

/-- Token types of `TokenType` in law_parser.py. -/
inductive TokenType where
  | subject
  | condition
  | action
  | modifier
  | value
  | placeholder
  | operator
  | delimiter
  | group_start
  | group_end
  | unknown
deriving DecidableEq, Repr

/-- A token as produced by `RegexTokenizer`.  `metadata` in the source holds
at most one of the keys `operator_type` (for operators) and `keyword_type`
(for keywords); both are carried here as optional fields. -/
structure Token where
  type : TokenType
  value : String
  original : Option String := none
  operator_type : Option String := none
  keyword_type : Option String := none
  position : Nat := 0
  line : Nat := 1
  column : Nat := 1
deriving DecidableEq, Repr

/-! ## Language configuration (law_parser.py, LanguageConfig) -/

/-- Embeds `LanguageConfig`: the `keywords` mapping is expanded into its four fixed
categories, `operators` into its two categories (the Python dict iterates
them in insertion order: comparison first, then logical).  The configured
delimiters are the single characters of the source lists. -/
structure LanguageConfig where
  language : String
  subjects : List String
  conditions : List String
  actions : List String
  modifiers : List String
  comparisonOps : List String
  logicalOps : List String
  delimiters : List Char
  groupStartMarkers : List String
  groupEndMarkers : List String
  negationWords : List String
  conditionalWords : List String
  actionMappings : List (String × String)
deriving Repr

/-- Embeds `LanguageConfig.create_default` for the russian language, copied literally. -/
def defaultRussianConfig : LanguageConfig :=
  { language := "russian"
    subjects := ["Пользователь", "Правитель", "Администратор"]
    conditions := ["член партии", "имеет право", "с рейтингом >", "с рейтингом <"]
    actions := ["голосовать", "создавать законы", "создавать партии", "быть лидером партии"]
    modifiers := ["если", "и", "или", "не"]
    comparisonOps := [">", "<", ">=", "<=", "==", "!="]
    logicalOps := ["и", "или", "не"]
    delimiters := [';', ',', '.']
    groupStartMarkers := ["(", "["]
    groupEndMarkers := [")", "]"]
    negationWords := ["не"]
    conditionalWords := ["если"]
    actionMappings :=
      [("голосовать", "vote"),
       ("создавать законы", "create_law"),
       ("создавать партии", "create_party"),
       ("быть лидером партии", "be_party_leader"),
       ("имеет право", "has_permission")] }

/-! ## Tokenizer (law_parser.py, RegexTokenizer) -/

/-- Whitespace characters removed by `str.strip()` (the ASCII subset, which
covers every law text considered here). -/
def isPySpace (c : Char) : Bool :=
  c = ' ' || c = '\t' || c = '\n' || c = '\r' || c = '\x0b' || c = '\x0c'

/-- Python `part.strip()` over the character list of a fragment. -/
def pyStrip (cs : List Char) : List Char :=
  ((cs.dropWhile isPySpace).reverse.dropWhile isPySpace).reverse

/-- The split `re.split` on the capturing delimiter alternation performed by
`RegexTokenizer.tokenize` for single-character delimiters: fragments between
delimiter occurrences are kept (possibly empty) and each delimiter occurrence
is kept as its own fragment. -/
def splitKeepDelims (delims : List Char) : List Char → List (List Char)
  | [] => [[]]
  | c :: rest =>
    if c ∈ delims then
      [] :: [c] :: splitKeepDelims delims rest
    else
      match splitKeepDelims delims rest with
      | [] => [[c]]
      | p :: ps => (c :: p) :: ps

/-- Decimal digits accepted by the regex class used in the placeholder
patterns. -/
def isAsciiDigit (c : Char) : Bool :=
  '0' ≤ c && c ≤ '9'

/-- Lazy `(.+?)(?:;|$)` matching of the СТРОКА/ПОЛЬЗОВАТЕЛЬ/ПАРТИЯ payload:
the shortest nonempty newline-free prefix that is followed by a semicolon or
by the end of the fragment. -/
def lazyDotPlusSemi : List Char → Option (List Char)
  | [] => none
  | c :: rest =>
    if c = '\n' then none
    else
      match rest with
      | [] => some [c]
      | ';' :: _ => some [c]
      | _ => (lazyDotPlusSemi rest).map (c :: ·)

/-- The `[ЧИСЛО]:(\d+)` payload: `re.match` only anchors at the start, so one
or more leading digits after the prefix suffice. -/
def matchDigitsPayload (rest : List Char) : Option (List Char) :=
  let ds := rest.takeWhile isAsciiDigit
  if ds.isEmpty then none else some ds

/-- The `[ДАТА]:(\d{4}-\d{2}-\d{2})` payload at the start of `rest`. -/
def matchDatePayload : List Char → Option (List Char)
  | a :: b :: c :: d :: x :: e :: f :: y :: g :: h :: _ =>
    if isAsciiDigit a && isAsciiDigit b && isAsciiDigit c && isAsciiDigit d
        && x = '-' && isAsciiDigit e && isAsciiDigit f && y = '-'
        && isAsciiDigit g && isAsciiDigit h then
      some [a, b, c, d, x, e, f, y, g, h]
    else none
  | _ => none

/-- Strip a literal prefix from a character list, or fail. -/
def dropLit (pat : List Char) (cs : List Char) : Option (List Char) :=
  match pat, cs with
  | [], rest => some rest
  | _ :: _, [] => none
  | p :: ps, c :: rest => if p = c then dropLit ps rest else none

/-- The `placeholder_patterns` table of `RegexTokenizer._classify_token`, in
its Python dict insertion order.  Each entry gives the literal prefix of the
pattern and the payload matcher for the remainder. -/
def placeholderPatterns : List (String × (List Char → Option (List Char))) :=
  [("[ЧИСЛО]", matchDigitsPayload),
   ("[СТРОКА]", lazyDotPlusSemi),
   ("[ПОЛЬЗОВАТЕЛЬ]", lazyDotPlusSemi),
   ("[ПАРТИЯ]", lazyDotPlusSemi),
   ("[ДАТА]", matchDatePayload)]

/-- Try the placeholder-with-payload patterns on a fragment, returning the
placeholder name and the captured payload. -/
def matchPlaceholderPattern (cs : List Char) : Option (String × String) :=
  placeholderPatterns.findSome? fun (ph, payload) =>
    match dropLit (ph.toList ++ [':']) cs with
    | none => none
    | some rest => (payload rest).map fun p => (ph, String.mk p)

/-- The standalone placeholder markers checked near the end of
`_classify_token`. -/
def standalonePlaceholders : List String :=
  ["[ЧИСЛО]", "[СТРОКА]", "[ПОЛЬЗОВАТЕЛЬ]", "[ПАРТИЯ]", "[ДАТА]"]

/-- Embeds `RegexTokenizer._keyword_to_token_type`. -/
def keywordToTokenType (keywordType : String) : TokenType :=
  if keywordType = "subjects" then .subject
  else if keywordType = "conditions" then .condition
  else if keywordType = "actions" then .action
  else if keywordType = "modifiers" then .modifier
  else .value

/-- Embeds `RegexTokenizer._classify_token`: classify one stripped nonempty fragment.
The checks run in source order: placeholder patterns, group markers,
delimiters, operators (comparison before logical), keywords (subjects,
conditions, actions, modifiers in insertion order), standalone placeholders,
and finally the free-text VALUE fallback. -/
def classifyToken (text : String) (config : LanguageConfig)
    (position line column : Nat) : Token :=
  match matchPlaceholderPattern text.toList with
  | some (ph, payload) =>
    { type := .value, value := payload, original := some ph
      position := position, line := line, column := column }
  | none =>
    if text ∈ config.groupStartMarkers then
      { type := .group_start, value := text
        position := position, line := line, column := column }
    else if text ∈ config.groupEndMarkers then
      { type := .group_end, value := text
        position := position, line := line, column := column }
    else if (match text.toList with
             | [c] => config.delimiters.contains c
             | _ => false) then
      { type := .delimiter, value := text
        position := position, line := line, column := column }
    else if text ∈ config.comparisonOps then
      { type := .operator, value := text, operator_type := some "comparison"
        position := position, line := line, column := column }
    else if text ∈ config.logicalOps then
      { type := .operator, value := text, operator_type := some "logical"
        position := position, line := line, column := column }
    else if text ∈ config.subjects then
      { type := .subject, value := text, keyword_type := some "subjects"
        position := position, line := line, column := column }
    else if text ∈ config.conditions then
      { type := .condition, value := text, keyword_type := some "conditions"
        position := position, line := line, column := column }
    else if text ∈ config.actions then
      { type := .action, value := text, keyword_type := some "actions"
        position := position, line := line, column := column }
    else if text ∈ config.modifiers then
      { type := .modifier, value := text, keyword_type := some "modifiers"
        position := position, line := line, column := column }
    else if text ∈ standalonePlaceholders then
      { type := .placeholder, value := text
        position := position, line := line, column := column }
    else
      { type := .value, value := text
        position := position, line := line, column := column }

/-- Index of the last newline of a fragment (`part.rfind` of the newline),
meaningful when the fragment contains one; used by the source column update
`len(part) - part.rfind(newline)`. -/
def lastNewlineIndex (cs : List Char) : Nat :=
  match cs with
  | [] => 0
  | _ :: rest =>
    if '\n' ∈ rest then 1 + lastNewlineIndex rest
    else 0

/-- The fragment loop of `RegexTokenizer.tokenize`: strip each fragment, skip
empty ones, classify the rest, and maintain position / line / column exactly
as the source does (using the stripped length, as the source reassigns
`part`). -/
def tokenizeParts (config : LanguageConfig) :
    List (List Char) → Nat → Nat → Nat → List Token
  | [], _, _, _ => []
  | p :: ps, position, line, column =>
    let part := pyStrip p
    if part.isEmpty then tokenizeParts config ps position line column
    else
      let tok := classifyToken (String.mk part) config position line column
      let position' := position + part.length
      let line' := if '\n' ∈ part then line + part.count '\n' else line
      let column' :=
        if '\n' ∈ part then part.length - lastNewlineIndex part
        else column + part.length
      tok :: tokenizeParts config ps position' line' column'

/-- Embeds `RegexTokenizer.tokenize`. -/
def tokenize (config : LanguageConfig) (text : String) : List Token :=
  tokenizeParts config (splitKeepDelims config.delimiters text.toList) 0 1 1

/-! ## Structural parser (law_parser.py, StructuralParser) -/

/-- A parameter entry of a condition or action item: the dicts built in
`StructuralParser._extract_parameters` (`operator_type` is present only for
operator parameters). -/
structure Param where
  type : String
  value : String
  operator_type : Option String := none
deriving DecidableEq, Repr

/-- A condition or action item of the parsed structure. -/
structure Item where
  type : String
  parameters : List Param
deriving DecidableEq, Repr

/-- An entry of the flat operator list of the parsed structure. -/
structure OpEntry where
  type : String
  operator_type : Option String
  position : Nat
deriving DecidableEq, Repr

/-- The structure dict built by `StructuralParser.parse`.  The field
`conditional_blocks` of the source is initialised to the empty list and never
touched, so it is omitted.  `groups` holds recursively parsed sub-structures,
which forces an inductive type rather than a Lean structure. -/
inductive Structure where
  | mk (subjects : List String) (conditions : List Item) (actions : List Item)
      (operators : List OpEntry) (values : List (String × String))
      (groups : List Structure) (negation : Bool)
deriving Repr

/-- Subjects collected so far (the source stores dicts with a `type` key and
an unread `metadata` key; only the type string is ever consumed). -/
def Structure.subjects : Structure → List String
  | .mk s _ _ _ _ _ _ => s

/-- Condition items collected so far. -/
def Structure.conditions : Structure → List Item
  | .mk _ c _ _ _ _ _ => c

/-- Action items collected so far. -/
def Structure.actions : Structure → List Item
  | .mk _ _ a _ _ _ _ => a

/-- Flat operator list collected so far. -/
def Structure.operators : Structure → List OpEntry
  | .mk _ _ _ o _ _ _ => o

/-- Placeholder-value mapping collected so far. -/
def Structure.values : Structure → List (String × String)
  | .mk _ _ _ _ v _ _ => v

/-- Recursively parsed groups collected so far. -/
def Structure.groups : Structure → List Structure
  | .mk _ _ _ _ _ g _ => g

/-- The scope-global negation flag. -/
def Structure.negation : Structure → Bool
  | .mk _ _ _ _ _ _ n => n

/-- Append a subject descriptor. -/
def Structure.addSubject : Structure → String → Structure
  | .mk s c a o v g n, x => .mk (s ++ [x]) c a o v g n

/-- Append a condition item. -/
def Structure.addCondition : Structure → Item → Structure
  | .mk s c a o v g n, x => .mk s (c ++ [x]) a o v g n

/-- Append an action item. -/
def Structure.addAction : Structure → Item → Structure
  | .mk s c a o v g n, x => .mk s c (a ++ [x]) o v g n

/-- Append an operator entry. -/
def Structure.addOperator : Structure → OpEntry → Structure
  | .mk s c a o v g n, x => .mk s c a (o ++ [x]) v g n

/-- Set the negation flag. -/
def Structure.setNegation : Structure → Bool → Structure
  | .mk s c a o v g _, b => .mk s c a o v g b

/-- Append a parsed group. -/
def Structure.addGroup : Structure → Structure → Structure
  | .mk s c a o v g n, x => .mk s c a o v (g ++ [x]) n

/-- Python dict assignment on the `values` mapping: overwrite in place when
the key exists, append otherwise (last writer wins). -/
def pyDictSet (d : List (String × String)) (k v : String) :
    List (String × String) :=
  match d with
  | [] => [(k, v)]
  | (k', v') :: rest => if k' = k then (k, v) :: rest else (k', v') :: pyDictSet rest k v

/-- Record a placeholder value in the structure. -/
def Structure.setValue : Structure → String → String → Structure
  | .mk s c a o v g n, k, x => .mk s c a o (pyDictSet v k x) g n

/-- The empty structure dict that opens `StructuralParser.parse`. -/
def initStructure : Structure := .mk [] [] [] [] [] [] false

/-- Build the parameter dict for one consumed VALUE or OPERATOR token. -/
def paramOfToken (t : Token) : Param :=
  if t.type = .value then { type := "value", value := t.value }
  else { type := "operator", value := t.value, operator_type := t.operator_type }

/-- The lookahead that breaks the parameter loop: a delimiter or a new
SUBJECT / CONDITION / ACTION token. -/
def isParamBoundary : Option Token → Bool
  | none => false
  | some t =>
    t.type = .delimiter || t.type = .subject || t.type = .condition || t.type = .action

/-- The while loop of `StructuralParser._extract_parameters`, iterating over
the token suffix that starts at the loop index `i` (so `suffix` is
`tokens[i:]` and the lookahead `tokens[i + 1]` is the head of its tail):
consume VALUE / OPERATOR tokens, stopping after an increment when the next
token is a boundary.  Returns the final loop index and the collected
parameters. -/
def extractParamsAux : List Token → Nat → List Param → Nat × List Param
  | [], i, params => (i, params)
  | t :: rest, i, params =>
    if t.type = .value || t.type = .operator then
      let params' := params ++ [paramOfToken t]
      if isParamBoundary rest.head? then (i + 1, params')
      else extractParamsAux rest (i + 1) params'
    else (i, params)

/-- Embeds `StructuralParser._extract_parameters`: the loop above started at
`start_index`, followed by the final `return i - 1`. -/
def extractParameters (tokens : List Token) (startIndex : Nat) :
    Nat × List Param :=
  let r := extractParamsAux (tokens.drop startIndex) startIndex []
  (r.1 - 1, r.2)

/-- The while loop of `StructuralParser._extract_group_content`, iterating
over the token suffix that starts at the loop index and tracking the bracket
nesting depth. -/
def extractGroupAux : List Token → Nat → Nat → List Token → List Token × Nat
  | _, i, 0, content => (content, i - 1)
  | [], i, _ + 1, content => (content, i - 1)
  | token :: rest, i, d + 1, content =>
    let depth' :=
      if token.type = .group_start then d + 2
      else if token.type = .group_end then d
      else d + 1
    let content' := if 0 < depth' then content ++ [token] else content
    extractGroupAux rest (i + 1) depth' content'

/-- Embeds `StructuralParser._extract_group_content`: the loop starts one past the
group marker with depth 1. -/
def extractGroupContent (tokens : List Token) (startIndex : Nat) :
    List Token × Nat :=
  extractGroupAux (tokens.drop (startIndex + 1)) (startIndex + 1) 1 []

/-- The main while loop of `StructuralParser.parse`, with an explicit fuel
bound: `none` means the bound was exhausted.  Each branch recurses at the
index the source continues from: SUBJECT, OPERATOR, VALUE and the unhandled
token types fall through to `i + 1`; CONDITION and ACTION continue from the
index returned by `_extract_parameters`; GROUP_START continues from the index
returned by `_extract_group_content` after recursively parsing the group
content. -/
def parseLoop (config : LanguageConfig) :
    Nat → List Token → Nat → Structure → Option Structure
  | 0, _, _, _ => none
  | fuel + 1, tokens, i, st =>
    match tokens[i]? with
    | none => some st
    | some token =>
      match token.type with
      | .subject =>
        parseLoop config fuel tokens (i + 1) (st.addSubject token.value)
      | .condition =>
        let r := extractParameters tokens (i + 1)
        parseLoop config fuel tokens r.1
          (st.addCondition { type := token.value, parameters := r.2 })
      | .action =>
        let r := extractParameters tokens (i + 1)
        parseLoop config fuel tokens r.1
          (st.addAction { type := token.value, parameters := r.2 })
      | .operator =>
        let st' := st.addOperator
          { type := token.value, operator_type := token.operator_type, position := i }
        let st'' := if token.value ∈ config.negationWords then st'.setNegation true else st'
        parseLoop config fuel tokens (i + 1) st''
      | .group_start =>
        let r := extractGroupContent tokens i
        if r.1.isEmpty then
          parseLoop config fuel tokens r.2 st
        else
          match parseLoop config fuel r.1 0 initStructure with
          | none => none
          | some g => parseLoop config fuel tokens r.2 (st.addGroup g)
      | .value =>
        match token.original with
        | some orig =>
          if orig ≠ "" then
            parseLoop config fuel tokens (i + 1) (st.setValue orig token.value)
          else
            parseLoop config fuel tokens (i + 1) st
        | none => parseLoop config fuel tokens (i + 1) st
      | _ => parseLoop config fuel tokens (i + 1) st

/-- Embeds `StructuralParser.parse` on a token list, under a fuel bound. -/
def structuralParse (config : LanguageConfig) (fuel : Nat) (tokens : List Token) :
    Option Structure :=
  parseLoop config fuel tokens 0 initStructure

/-! ## ParsedLaw and UniversalLawParser.parse -/

/-- Embeds `ParsedLaw`.  The `structure` attribute is `none` on the empty-token
early return, where the source stores an empty dict. -/
structure ParsedLaw where
  raw_text : String
  tokens : List Token
  structure_ : Option Structure
  is_valid : Bool
  errors : List String
  warnings : List String := []
deriving Repr

/-- Embeds `UniversalLawParser._validate_structure`: the errors it appends. -/
def validateStructure (st : Structure) : List String :=
  (if st.subjects.isEmpty then ["No subjects found in law"] else []) ++
  (if st.actions.isEmpty && st.conditions.isEmpty then
    ["No actions or conditions found in law"] else [])

/-- Embeds `UniversalLawParser.parse` under a fuel bound for the structural parser
loop; `none` means the loop did not finish within the bound.  The source
except-branch (tokenizer or parser raising) is unreachable in the embedding,
every embedded operation being total. -/
def universalParse (fuel : Nat) (config : LanguageConfig) (law_text : String) :
    Option ParsedLaw :=
  let tokens := tokenize config law_text
  if tokens.isEmpty then
    some { raw_text := law_text, tokens := [], structure_ := none,
           is_valid := false, errors := ["Empty or invalid law text"] }
  else
    match structuralParse config fuel tokens with
    | none => none
    | some st =>
      let errors := validateStructure st
      some { raw_text := law_text, tokens := tokens, structure_ := some st,
             is_valid := errors.isEmpty, errors := errors }

/-! ## Rules and the permission enforcer (law_parser.py, ActionRule and
LawEnforcer) -/

/-- The heterogeneous values stored under the `value` key of a compiled
condition dict: `_extract_conditions` only ever stores a bool, an int or a
string there. -/
inductive CondValue where
  | b (x : Bool)
  | i (x : Int)
  | s (x : String)
deriving DecidableEq, Repr

/-- A compiled condition dict with its `type` and `value` keys. -/
structure Condition where
  type : String
  value : CondValue
deriving DecidableEq, Repr

/-- Embeds `ActionRule`.  The `metadata` dict of the source only ever holds the
`source_law` key. -/
structure ActionRule where
  action_name : String
  subject_type : String
  conditions : List Condition
  allow : Bool := true
  priority : Int := 0
  source_law : String := ""
deriving DecidableEq, Repr

/-- A user object as consulted by the enforcer through `getattr`.  The
`party` relation is consulted only for its `name`, carried here as
`party_name` (`none` models a `None` relation). -/
structure PyUser where
  username : String := ""
  party_id : Option Int := none
  rating : Int := 0
  party_name : Option String := none
  admin : Bool := false
deriving DecidableEq, Repr

/-- The `context` dict passed to `check_permission`; no enforcer code path
ever reads its contents, only its identity matters to the statements. -/
abbrev PermContext := List (String × String)

/-- Python `==` between a computed value and a stored condition value:
booleans and ints compare numerically, strings compare only with strings. -/
def pyEqCV : CondValue → CondValue → Bool
  | .b x, .b y => x == y
  | .b x, .i y => (if x then (1 : Int) else 0) == y
  | .i x, .b y => x == (if y then (1 : Int) else 0)
  | .i x, .i y => x == y
  | .s x, .s y => x == y
  | _, _ => false

/-- Python `>` between an int and a stored condition value; comparing with a
string raises `TypeError`, modelled as `none`. -/
def pyIntGtCV (r : Int) : CondValue → Option Bool
  | .b y => some (decide (r > if y then 1 else 0))
  | .i y => some (decide (r > y))
  | .s _ => none

/-- Python `<` between an int and a stored condition value, as above. -/
def pyIntLtCV (r : Int) : CondValue → Option Bool
  | .b y => some (decide (r < if y then 1 else 0))
  | .i y => some (decide (r < y))
  | .s _ => none

/-- Embeds `bool` of `getattr` on party_id with default None: a missing user or a missing
party id is falsy, and so is a zero id. -/
def userPartyIdTruthy : Option PyUser → Bool
  | none => false
  | some u => match u.party_id with | none => false | some n => n != 0

/-- Embeds `getattr` on rating with default 0. -/
def userRating : Option PyUser → Int
  | none => 0
  | some u => u.rating

/-- Embeds `getattr` on username with the empty-string default. -/
def userUsername : Option PyUser → String
  | none => ""
  | some u => u.username

/-- Embeds `getattr` on admin with default False. -/
def userAdmin : Option PyUser → Bool
  | none => false
  | some u => u.admin

/-- The `party_name_equals` branch: `party and party.name == value`, whose
falsy `None` result is treated as a failed condition by the caller. -/
def checkPartyNameEquals (user : Option PyUser) (v : CondValue) : Bool :=
  match user with
  | none => false
  | some u =>
    match u.party_name with
    | none => false
    | some n => pyEqCV (.s n) v

/-- Embeds `LawEnforcer._check_condition`.  The result is `none` exactly when the
source would raise (an int rating compared against a string value); unknown
condition types fall through to the permissive `return True`. -/
def checkCondition (user : Option PyUser) (condition : Condition)
    (_context : PermContext) : Option Bool :=
  let v := condition.value
  if condition.type = "has_party" then
    some (pyEqCV (.b (userPartyIdTruthy user)) v)
  else if condition.type = "rating_gt" then pyIntGtCV (userRating user) v
  else if condition.type = "rating_lt" then pyIntLtCV (userRating user) v
  else if condition.type = "username_equals" then
    some (pyEqCV (.s (userUsername user)) v)
  else if condition.type = "party_name_equals" then
    some (checkPartyNameEquals user v)
  else if condition.type = "has_base_permission" then some true
  else some true

/-- The condition loop of `LawEnforcer._check_rule`: fail on the first falsy
condition, propagate a raised exception. -/
def checkCondList (user : Option PyUser) : List Condition → PermContext → Option Bool
  | [], _ => some true
  | c :: rest, ctx =>
    match checkCondition user c ctx with
    | none => none
    | some b => if b then checkCondList user rest ctx else some false

/-- Embeds `LawEnforcer._check_rule`: the subject-type gate followed by the
condition loop.  Only the two literal subject strings are gated. -/
def checkRule (user : Option PyUser) (rule : ActionRule) (context : PermContext) :
    Option Bool :=
  if rule.subject_type = "Пользователь" then
    if !user.isSome then some false
    else checkCondList user rule.conditions context
  else if rule.subject_type = "Правитель" then
    if !user.isSome || !userAdmin user then some false
    else checkCondList user rule.conditions context
  else checkCondList user rule.conditions context

/-- The rule loop of `LawEnforcer.check_permission`: the first rule whose
check is truthy decides with its `allow` polarity; a raised exception
propagates; exhaustion is a deny. -/
def checkPermissionList (user : Option PyUser) (context : PermContext) :
    List ActionRule → Option Bool
  | [] => some false
  | r :: rest =>
    match checkRule user r context with
    | none => none
    | some true => some r.allow
    | some false => checkPermissionList user context rest

/-- Embeds `LawEnforcer.check_permission` over the rule index, modelled as the total
lookup `rules.get(action_name, [])`. -/
def checkPermission (rules : String → List ActionRule) (user : Option PyUser)
    (action_name : String) (context : PermContext) : Option Bool :=
  let rs := rules action_name
  if rs.isEmpty then some false
  else checkPermissionList user context rs

/-! ## Rule registration (law_parser.py, LawEnforcer.add_law and the index) -/

/-- One step of the stable descending insertion used to model
`list.sort(key=priority, reverse=True)`: the new element goes after every
element of priority greater than or equal to its own. -/
def insertByPriorityDesc : List ActionRule → ActionRule → List ActionRule
  | [], r => [r]
  | x :: xs, r =>
    if r.priority ≤ x.priority then x :: insertByPriorityDesc xs r
    else r :: x :: xs

/-- Python `list.sort(key=lambda r: r.priority, reverse=True)` is a stable
descending sort; inserting the elements left to right with
`insertByPriorityDesc` computes exactly that stable sort. -/
def pySortByPriorityDesc (l : List ActionRule) : List ActionRule :=
  l.foldl insertByPriorityDesc []

/-- The empty rule index of a fresh `LawEnforcer`. -/
def emptyRules : String → List ActionRule := fun _ => []

/-- The per-rule body of `add_law`: create the action entry when missing,
append the rule, re-sort that entry by priority descending. -/
def addRuleToIndex (rules : String → List ActionRule) (r : ActionRule) :
    String → List ActionRule :=
  fun a =>
    if a = r.action_name then pySortByPriorityDesc (rules a ++ [r])
    else rules a

/-- The `for rule in rules` loop of `add_law`. -/
def registerRules (rules : String → List ActionRule) (rs : List ActionRule) :
    String → List ActionRule :=
  rs.foldl addRuleToIndex rules

/-! ## Rule compiler (law_parser.py, LawEnforcer._convert_to_rules) -/

/-- Python `str.lower` on the alphabets that can occur in configured action
phrases (ASCII and Cyrillic). -/
def pyCharLower (c : Char) : Char :=
  if 'A' ≤ c && c ≤ 'Z' then Char.ofNat (c.toNat + 32)
  else if 'А' ≤ c && c ≤ 'Я' then Char.ofNat (c.toNat + 32)
  else if c = 'Ё' then 'ё'
  else c

/-- Embeds `LawEnforcer._normalize_action_name`: the configured mapping, with a
lower-case space-to-underscore fallback. -/
def normalizeActionName (config : LanguageConfig) (action : String) : String :=
  match config.actionMappings.lookup action with
  | some mapped => mapped
  | none =>
    String.mk ((action.toList.map pyCharLower).map fun c => if c = ' ' then '_' else c)

/-- Python `int(text)`: optional surrounding whitespace, an optional sign,
then one or more decimal digits; anything else raises, modelled as `none`. -/
def pyParseInt (s : String) : Option Int :=
  let digitsVal : List Char → Int := fun ds =>
    Int.ofNat (ds.foldl (fun acc c => acc * 10 + (c.toNat - '0'.toNat)) 0)
  match pyStrip s.toList with
  | '-' :: ds =>
    if !ds.isEmpty && ds.all isAsciiDigit then some (-(digitsVal ds)) else none
  | '+' :: ds =>
    if !ds.isEmpty && ds.all isAsciiDigit then some (digitsVal ds) else none
  | ds =>
    if !ds.isEmpty && ds.all isAsciiDigit then some (digitsVal ds) else none

/-- Python substring containment `pat in hay` over character lists. -/
def containsSubstr (hay pat : List Char) : Bool :=
  match hay with
  | [] => pat.isEmpty
  | _ :: rest => pat.isPrefixOf hay || containsSubstr rest pat

/-- The per-item part of `LawEnforcer._extract_conditions`: the fixed
condition vocabulary, with integer coercion of value parameters (non-numeric
parameters are silently dropped by the except-pass). -/
def conditionsFromItem (item : Item) : List Condition :=
  if item.type = "член партии" then [⟨"has_party", .b true⟩]
  else if containsSubstr item.type.toList "рейтингом >".toList
      && !item.parameters.isEmpty then
    item.parameters.filterMap fun p =>
      if p.type = "value" then (pyParseInt p.value).map fun n => ⟨"rating_gt", .i n⟩
      else none
  else if containsSubstr item.type.toList "рейтингом <".toList
      && !item.parameters.isEmpty then
    item.parameters.filterMap fun p =>
      if p.type = "value" then (pyParseInt p.value).map fun n => ⟨"rating_lt", .i n⟩
      else none
  else if item.type = "имеет право" then [⟨"has_base_permission", .b true⟩]
  else []

/-- The placeholder part of `LawEnforcer._extract_conditions`. -/
def conditionsFromValues (values : List (String × String)) : List Condition :=
  values.filterMap fun pv =>
    if pv.1 = "[ПОЛЬЗОВАТЕЛЬ]" then some ⟨"username_equals", .s pv.2⟩
    else if pv.1 = "[ПАРТИЯ]" then some ⟨"party_name_equals", .s pv.2⟩
    else if pv.1 = "[ЧИСЛО]" then (pyParseInt pv.2).map fun n => ⟨"number_value", .i n⟩
    else none

/-- Embeds `LawEnforcer._extract_conditions`. -/
def extractConditions (st : Structure) : List Condition :=
  (st.conditions.map conditionsFromItem).foldl (· ++ ·) [] ++
    conditionsFromValues st.values

/-- Embeds `LawEnforcer._convert_to_rules`: one rule per action item, sharing the
first subject, the extracted conditions, and the negation-derived polarity
and priority.  The empty-structure early return of `UniversalLawParser.parse`
has no actions, hence no rules. -/
def convertToRules (config : LanguageConfig) (parsed : ParsedLaw)
    (law_name : String) : List ActionRule :=
  match parsed.structure_ with
  | none => []
  | some st =>
    let hasNegation := st.negation
    let subject := match st.subjects with | [] => "" | s :: _ => s
    st.actions.map fun action =>
      { action_name := normalizeActionName config action.type
        subject_type := subject
        conditions := extractConditions st
        allow := !hasNegation
        priority := if hasNegation then 1 else 0
        source_law := law_name }

/-- Embeds `LawEnforcer.add_law` under the parse fuel bound: `none` when the parse
loop never returns, `Except.error` for the `ValueError` raised on an invalid
parse (the source message interpolates the law name), `Except.ok` with the
updated index otherwise. -/
def addLaw (fuel : Nat) (config : LanguageConfig)
    (rules : String → List ActionRule) (law_text law_name : String) :
    Option (Except String (String → List ActionRule)) :=
  match universalParse fuel config law_text with
  | none => none
  | some parsed =>
    if !parsed.is_valid then
      some (.error ("Некорректный закон: " ++ law_name))
    else
      some (.ok (registerRules rules (convertToRules config parsed law_name)))

/-- Embeds `LawEnforcer.load_laws_from_db` over the queried law records, each a
(name, text) pair: per-law exceptions are printed and swallowed, so an
invalid law leaves the index unchanged and the loop continues; a law whose
parse never returns makes the whole call hang (`none`). -/
def loadLawsFromDb (fuel : Nat) (config : LanguageConfig)
    (rules : String → List ActionRule) :
    List (String × String) → Option (String → List ActionRule)
  | [] => some rules
  | (law_name, law_text) :: rest =>
    match addLaw fuel config rules law_text law_name with
    | none => none
    | some (.error _) => loadLawsFromDb fuel config rules rest
    | some (.ok rules') => loadLawsFromDb fuel config rules' rest

/-! ## Python AST subset and the code validator (law_system.py,
LawValidator) -/

mutual
/-- The expression nodes of the Python AST fragment the validator inspects.
`dictE` mirrors `ast.Dict` with parallel key and value lists; `constant`
carries an opaque rendering of the literal. -/
inductive PyExpr where
  | name (id : String)
  | constant (lit : String)
  | attribute (value : PyExpr) (attr : String)
  | call (func : PyExpr) (args : List PyExpr)
  | binop (left : PyExpr) (right : PyExpr)
  | compare (left : PyExpr) (right : PyExpr)
  | listE (elts : List PyExpr)
  | dictE (keys : List PyExpr) (values : List PyExpr)
deriving Repr

/-- The statement nodes of the Python AST fragment the validator inspects. -/
inductive PyStmt where
  | importS (names : List String)
  | importFrom (module : String) (names : List String)
  | deleteS (targets : List PyExpr)
  | globalS (names : List String)
  | nonlocalS (names : List String)
  | assign (targets : List PyExpr) (value : PyExpr)
  | exprS (value : PyExpr)
  | returnS (value : Option PyExpr)
  | ifS (test : PyExpr) (body : List PyStmt) (orelse : List PyStmt)
  | functionDef (name : String) (args : List String) (body : List PyStmt)
deriving Repr
end

/-- A node visited by `ast.walk`: either a statement or an expression. -/
inductive PyNode where
  | stmt (s : PyStmt)
  | expr (e : PyExpr)
deriving Repr

mutual
/-- All nodes of a statement, the statement itself first.  `ast.walk`
enumerates breadth-first; the validator only consumes the collection of
visited nodes, which is order-independent, so the embedding enumerates
depth-first. -/
def stmtNodes : PyStmt → List PyNode
  | .importS names => [.stmt (.importS names)]
  | .importFrom m names => [.stmt (.importFrom m names)]
  | .deleteS targets => .stmt (.deleteS targets) :: exprListNodes targets
  | .globalS names => [.stmt (.globalS names)]
  | .nonlocalS names => [.stmt (.nonlocalS names)]
  | .assign targets value =>
    .stmt (.assign targets value) :: (exprListNodes targets ++ exprNodes value)
  | .exprS value => .stmt (.exprS value) :: exprNodes value
  | .returnS none => [.stmt (.returnS none)]
  | .returnS (some value) => .stmt (.returnS (some value)) :: exprNodes value
  | .ifS test body orelse =>
    .stmt (.ifS test body orelse) ::
      (exprNodes test ++ stmtListNodes body ++ stmtListNodes orelse)
  | .functionDef n args body =>
    .stmt (.functionDef n args body) :: stmtListNodes body

/-- All nodes of an expression, itself first. -/
def exprNodes : PyExpr → List PyNode
  | .name id => [.expr (.name id)]
  | .constant lit => [.expr (.constant lit)]
  | .attribute value attr => .expr (.attribute value attr) :: exprNodes value
  | .call func args => .expr (.call func args) :: (exprNodes func ++ exprListNodes args)
  | .binop l r => .expr (.binop l r) :: (exprNodes l ++ exprNodes r)
  | .compare l r => .expr (.compare l r) :: (exprNodes l ++ exprNodes r)
  | .listE elts => .expr (.listE elts) :: exprListNodes elts
  | .dictE keys values =>
    .expr (.dictE keys values) :: (exprListNodes keys ++ exprListNodes values)

/-- Nodes of a statement list. -/
def stmtListNodes : List PyStmt → List PyNode
  | [] => []
  | s :: rest => stmtNodes s ++ stmtListNodes rest

/-- Nodes of an expression list. -/
def exprListNodes : List PyExpr → List PyNode
  | [] => []
  | e :: rest => exprNodes e ++ exprListNodes rest
end

/-- Embeds `ast.walk` over a parsed module body (the `ast.Module` root node itself
matches none of the validator checks). -/
def moduleNodes (body : List PyStmt) : List PyNode :=
  stmtListNodes body

/-- Embeds `LawValidator.FORBIDDEN_NAMES`. -/
def FORBIDDEN_NAMES : List String :=
  ["exec", "eval", "compile", "__import__", "open",
   "file", "input", "raw_input", "reload", "vars",
   "globals", "locals", "dir", "getattr", "setattr",
   "delattr", "hasattr"]

/-- Membership of a node type in `LawValidator.FORBIDDEN_NODES`
(Import, ImportFrom, Delete, Global, Nonlocal). -/
def isForbiddenNodeType : PyNode → Bool
  | .stmt (.importS _) => true
  | .stmt (.importFrom _ _) => true
  | .stmt (.deleteS _) => true
  | .stmt (.globalS _) => true
  | .stmt (.nonlocalS _) => true
  | _ => false

/-- The printable node type name used in the violation message. -/
def nodeTypeName : PyNode → String
  | .stmt (.importS _) => "Import"
  | .stmt (.importFrom _ _) => "ImportFrom"
  | .stmt (.deleteS _) => "Delete"
  | .stmt (.globalS _) => "Global"
  | .stmt (.nonlocalS _) => "Nonlocal"
  | _ => ""

/-- The per-node checks of `LawValidator.validate_code`, in source order:
forbidden node types, forbidden names, private-attribute access, and calls
whose callee is a dynamic-evaluation primitive. -/
def nodeViolation (n : PyNode) : Option String :=
  if isForbiddenNodeType n then some ("Запрещенная операция: " ++ nodeTypeName n)
  else
    match n with
    | .expr (.name id) =>
      if FORBIDDEN_NAMES.contains id then some ("Запрещенное имя: " ++ id) else none
    | .expr (.attribute _ attr) =>
      if attr.toList.head? = some '_' then
        some ("Доступ к приватным атрибутам запрещен: " ++ attr)
      else none
    | .expr (.call (.name id) _) =>
      if ["exec", "eval", "compile"].contains id then
        some ("Запрещенный вызов функции: " ++ id)
      else none
    | _ => none

/-- The walk loop of `validate_code` over an already parsed module: the first
violating node decides. -/
def validateAst (body : List PyStmt) : Bool × String :=
  match (moduleNodes body).findSome? nodeViolation with
  | some msg => (false, msg)
  | none => (true, "OK")

/-- Embeds `LawValidator.validate_code`: scripts are handed to the embedding
already parsed, `Except.error` standing for the `ast.parse` SyntaxError
branch with its message. -/
def validateCode (parsed : Except String (List PyStmt)) : Bool × String :=
  match parsed with
  | .error e => (false, "Синтаксическая ошибка: " ++ e)
  | .ok body => validateAst body

/-! ## Sandboxed executor (law_system.py, LawExecutor.execute_law) -/

/-- Embeds `ExecutionResult`: the dict literally returned by `execute_law`, with
keys success, error and result.  The result payload type is a parameter: the
scripts return arbitrary Python objects. -/
structure ExecutionResult (α : Type) where
  success : Bool
  error : Option String
  result : Option α
deriving DecidableEq, Repr

/-- The outcome of calling the `apply` entry point, an oracle for the
un-modellable user code: it raises or returns a value. -/
inductive ApplyOutcome (α : Type) where
  | raises (msg : String)
  | returns (v : α)
deriving DecidableEq, Repr

/-- The outcome of `compile` plus `exec` of the script in the restricted
namespace: the pair raises, or completes leaving `apply` undefined, or
completes with an `apply` whose zero-argument call has the given outcome. -/
inductive ScriptOutcome (α : Type) where
  | raises (msg : String)
  | completes (applyEntry : Option (ApplyOutcome α))
deriving DecidableEq, Repr

/-- Embeds `LawExecutor.execute_law`: validate, then compile and run inside the
try-block, mapping every outcome to a result dict.  The construction of the
restricted namespace (safe builtins, api object, context) binds only fixed
objects and cannot raise, so it does not appear as a failure source. -/
def executeLaw {α : Type} (parsed : Except String (List PyStmt))
    (outcome : ScriptOutcome α) : ExecutionResult α :=
  let v := validateCode parsed
  if !v.1 then
    { success := false
      error := some ("Код закона не прошел проверку безопасности: " ++ v.2)
      result := none }
  else
    match outcome with
    | .raises msg =>
      { success := false, error := some ("Ошибка выполнения: " ++ msg), result := none }
    | .completes none =>
      { success := false, error := some "Закон должен содержать функцию apply()",
        result := none }
    | .completes (some (.raises msg)) =>
      { success := false, error := some ("Ошибка выполнения: " ++ msg), result := none }
    | .completes (some (.returns value)) =>
      { success := true, error := none, result := some value }

/-! ## Triggers and the law manager (law_system.py, LawTrigger subclasses and
LawManager) -/

/-- Embeds `LawContext`. -/
structure LawContext where
  user_id : Int
  action : String
  timestamp : Int
  data : List (String × String)
deriving Repr

/-- The three `LawTrigger` subclasses.  A conditional trigger carries its
predicate together with the exception behaviour of its bare except clause:
`none` from the predicate stands for a raise, turned into `False`. -/
inductive LawTrigger where
  | actionTrigger (actions : List String)
  | timeTrigger (schedule : String)
  | conditionalTrigger (condition : LawContext → Option Bool)

/-- Embeds `should_trigger` of each subclass. -/
def shouldTrigger : LawTrigger → LawContext → Bool
  | .actionTrigger actions, context => actions.contains context.action
  | .timeTrigger _, context => context.action == "time_check"
  | .conditionalTrigger condition, context =>
    match condition context with
    | some b => b
    | none => false

/-- A registered law as stored in `LawManager.active_laws`: its code (handed
over already parsed), its triggers, the active flag, and the oracle giving
the outcome of running the script under a context. -/
structure RegisteredLaw (α : Type) where
  parsed : Except String (List PyStmt)
  triggers : List LawTrigger
  active : Bool
  outcome : LawContext → ScriptOutcome α

/-- An `ExecutionResult` tagged with the id of the law that produced it
(the source sets the law_id key on the result dict). -/
structure TaggedResult (α : Type) where
  success : Bool
  error : Option String
  result : Option α
  law_id : Int
deriving DecidableEq, Repr

/-- Tag an execution result with a law id. -/
def tagResult {α : Type} (r : ExecutionResult α) (law_id : Int) : TaggedResult α :=
  { success := r.success, error := r.error, result := r.result, law_id := law_id }

/-- Embeds `LawManager.trigger_laws` over the registered-law table in its iteration
order: skip inactive laws, fire each law any of whose triggers matches, and
collect the tagged results. -/
def triggerLaws {α : Type} (laws : List (Int × RegisteredLaw α))
    (context : LawContext) : List (TaggedResult α) :=
  match laws with
  | [] => []
  | (law_id, law) :: rest =>
    if !law.active then triggerLaws rest context
    else if law.triggers.any (fun t => shouldTrigger t context) then
      tagResult (executeLaw law.parsed (law.outcome context)) law_id
        :: triggerLaws rest context
    else triggerLaws rest context

/-! ## Auxiliary definitions used by the statements -/

/-- Import statements of any form (`ast.Import` and `ast.ImportFrom`). -/
def isImportNode : PyNode → Bool
  | .stmt (.importS _) => true
  | .stmt (.importFrom _ _) => true
  | _ => false

/-- Descending priority order, the invariant `list.sort(reverse=True)`
establishes on every rule-index entry. -/
def SortedDesc (l : List ActionRule) : Prop :=
  l.Pairwise (fun x y => y.priority ≤ x.priority)

/-- The rule sequence contributed by a list of law records: the concatenated
compiled rules of the records that parse to a valid law, skipping invalid
ones (whose `ValueError` the load loop swallows); `none` when some parse
never returns.  The sequence depends only on the records, not on the index
the load starts from. -/
def recordsRules (fuel : Nat) (config : LanguageConfig) :
    List (String × String) → Option (List ActionRule)
  | [] => some []
  | (law_name, law_text) :: rest =>
    match universalParse fuel config law_text with
    | none => none
    | some parsed =>
      if !parsed.is_valid then recordsRules fuel config rest
      else (recordsRules fuel config rest).map
        (fun rs => convertToRules config parsed law_name ++ rs)

/-- The law text of the §8 scenario. -/
def scenarioLawText : String := "Пользователь член партии голосовать"

/-- A party member, as in the §8 scenario. -/
def userWithParty : Option PyUser := some { username := "u1", party_id := some 1 }

/-- A user in no party, as in the §8 scenario. -/
def userWithoutParty : Option PyUser := some { username := "u2", party_id := none }

/-- The single token the tokenizer produces for the bare condition phrase
"член партии" (one fragment, matched exactly against the configured
condition keywords). -/
def conditionOnlyToken : Token :=
  { type := .condition, value := "член партии", keyword_type := some "conditions" }

/-! ## Theorems -/

/-- When every rule check in the list comes out false, the rule loop
exhausts the list and denies. -/
theorem checkPermissionList_all_false (user : Option PyUser) (ctx : PermContext)
    (l : List ActionRule) (h : ∀ r ∈ l, checkRule user r ctx = some false) :
    checkPermissionList user ctx l = some false := by
  induction l with
  | nil => rfl
  | cons r rest ih =>
    rw [checkPermissionList, h r (List.mem_cons_self r rest)]
    exact ih fun r' hr' => h r' (List.mem_cons_of_mem r hr')

/-- Embeds `check_permission` is the rule loop applied to the looked-up entry: the
explicit empty-list early return agrees with the loop on the empty list. -/
theorem checkPermission_eq_list (rules : String → List ActionRule)
    (user : Option PyUser) (action : String) (ctx : PermContext) :
    checkPermission rules user action ctx = checkPermissionList user ctx (rules action) := by
  unfold checkPermission
  cases rules action <;> rfl

/-- The parse loop never leaves index 0 on a lone CONDITION token:
`_extract_parameters` consumes no parameter and returns `start_index - 1`,
which equals the index of the CONDITION token itself, and the branch
continues without advancing. -/
theorem parseLoop_stuck_on_condition (fuel : Nat) (st : Structure) :
    parseLoop defaultRussianConfig fuel [conditionOnlyToken] 0 st = none := by
  induction fuel generalizing st with
  | zero => rfl
  | succ fuel ih => exact ih (st.addCondition { type := "член партии", parameters := [] })

/-- When the token list is nonempty and the structural parse loop does not
finish within the fuel bound, neither does `UniversalLawParser.parse`. -/
theorem universalParse_none (fuel : Nat) (config : LanguageConfig) (text : String)
    (hne : (tokenize config text).isEmpty = false)
    (h : structuralParse config fuel (tokenize config text) = none) :
    universalParse fuel config text = none := by
  unfold universalParse
  simp only [hne, Bool.false_eq_true, if_false, h]

/-- C1: `parse` does not terminate on every law text.  On the text
"член партии" — a single CONDITION token followed by zero VALUE/OPERATOR
tokens — the structural parse loop runs out of any fuel bound, i.e. the
source loops forever, because `_extract_parameters` returns
`start_index - 1` and the CONDITION branch continues without advancing. -/
theorem parse_does_not_terminate_on_bare_condition (fuel : Nat) :
    universalParse fuel defaultRussianConfig "член партии" = none := by
  refine universalParse_none fuel _ _ rfl ?_
  exact parseLoop_stuck_on_condition fuel initStructure

/-- C2: evaluating the pipeline at the §8 scenario text.  The tokenizer
splits only on the configured delimiters, so the whole text is one fragment
that matches no keyword exactly and becomes a single VALUE token; the parse
is invalid with both structural errors and empty subject / condition /
action collections; `add_law` raises `ValueError` (the error branch), so no
rule is registered and `check_permission` denies the scenario action for
the party member as well as for the outsider. -/
theorem scenario_text_yields_invalid_parse :
    ((universalParse 16 defaultRussianConfig scenarioLawText).map
      (fun p => (p.is_valid, p.errors, p.tokens.map Token.type,
        p.structure_.map (fun st => (st.subjects, st.conditions, st.actions))))
      = some (false,
        ["No subjects found in law", "No actions or conditions found in law"],
        [TokenType.value], some ([], [], []))) ∧
    addLaw 16 defaultRussianConfig emptyRules scenarioLawText "scenario" =
      some (.error "Некорректный закон: scenario") ∧
    checkPermission emptyRules userWithParty "vote" [] = some false ∧
    checkPermission emptyRules userWithoutParty "vote" [] = some false := by
  set_option maxRecDepth 40000 in
  exact ⟨rfl, rfl, rfl, rfl⟩

/-- C10: the subject-type predicate of `_check_rule` is enforced only for
the two literal strings "Пользователь" and "Правитель"; a rule with any
other subject type — "Администратор" and the empty string included — skips
the subject gate entirely, so it matches on its conditions alone, even for a
missing (None) subject. -/
theorem subject_gate_only_two_subjects (rule : ActionRule) (user : Option PyUser)
    (ctx : PermContext)
    (h1 : rule.subject_type ≠ "Пользователь")
    (h2 : rule.subject_type ≠ "Правитель") :
    checkRule user rule ctx = checkCondList user rule.conditions ctx := by
  unfold checkRule
  rw [if_neg h1, if_neg h2]

/-- Witness for C10: a rule for the configured subject "Администратор" with
no conditions matches the missing (None) user. -/
theorem subject_gate_only_two_subjects_witness :
    checkRule none
      { action_name := "vote", subject_type := "Администратор", conditions := [] }
      [] = some true := by
  rw [subject_gate_only_two_subjects
    { action_name := "vote", subject_type := "Администратор", conditions := [] }
    none [] (by decide) (by decide)]
  rfl

/-- C6: `check_permission` denies by default: an absent or empty index entry
for the action yields `False`, and so does an entry in which no rule check
is truthy; both answers are returned values (`some false`), never a raised
error, so an unknown action is a silent deny. -/
theorem check_permission_default_deny (rules : String → List ActionRule)
    (user : Option PyUser) (action : String) (ctx : PermContext) :
    (rules action = [] → checkPermission rules user action ctx = some false) ∧
    ((∀ r ∈ rules action, checkRule user r ctx = some false) →
      checkPermission rules user action ctx = some false) := by
  refine ⟨fun h => ?_, fun h => ?_⟩
  · rw [checkPermission_eq_list, h]
    rfl
  · rw [checkPermission_eq_list]
    exact checkPermissionList_all_false user ctx (rules action) h

/-- Witness for C6: the fresh empty index denies the scenario action for
every user. -/
theorem check_permission_default_deny_witness :
    checkPermission emptyRules userWithParty "vote" [] = some false :=
  (check_permission_default_deny emptyRules userWithParty "vote" []).1 rfl

/-- C5: with a negated deny rule of priority 1 and an affirmative allow rule
of priority 0 registered for the same action — in either order — the stable
descending re-sort performed on insert places the deny rule first, so
`check_permission` returns `False` whenever the deny rule matches the
subject and context. -/
theorem negated_rule_wins_both_orders (d a : ActionRule) (user : Option PyUser)
    (ctx : PermContext)
    (hd : d.allow = false) (hdp : d.priority = 1)
    (_ha : a.allow = true) (hap : a.priority = 0)
    (hname : a.action_name = d.action_name)
    (hmatch : checkRule user d ctx = some true) :
    checkPermission (addRuleToIndex (addRuleToIndex emptyRules d) a)
        user d.action_name ctx = some false ∧
    checkPermission (addRuleToIndex (addRuleToIndex emptyRules a) d)
        user d.action_name ctx = some false := by
  have hda : (addRuleToIndex (addRuleToIndex emptyRules d) a) d.action_name = [d, a] := by
    simp only [addRuleToIndex, emptyRules, hname, if_pos rfl, List.nil_append,
      pySortByPriorityDesc, List.foldl, insertByPriorityDesc, hdp, hap]
    norm_num
  have had : (addRuleToIndex (addRuleToIndex emptyRules a) d) d.action_name = [d, a] := by
    simp only [addRuleToIndex, emptyRules, hname, if_pos rfl, List.nil_append,
      pySortByPriorityDesc, List.foldl, insertByPriorityDesc, hdp, hap]
    norm_num
  constructor
  · rw [checkPermission_eq_list, hda, checkPermissionList, hmatch, hd]
  · rw [checkPermission_eq_list, had, checkPermissionList, hmatch, hd]

/-- Witness for C5: concrete deny and allow rules for the action "vote" and
the missing (None) subject, for which the empty-subject deny rule matches. -/
theorem negated_rule_wins_both_orders_witness :
    checkPermission
      (addRuleToIndex
        (addRuleToIndex emptyRules
          { action_name := "vote", subject_type := "", conditions := [],
            allow := false, priority := 1 })
        { action_name := "vote", subject_type := "", conditions := [],
          allow := true, priority := 0 })
      none "vote" [] = some false :=
  (negated_rule_wins_both_orders
    { action_name := "vote", subject_type := "", conditions := [],
      allow := false, priority := 1 }
    { action_name := "vote", subject_type := "", conditions := [],
      allow := true, priority := 0 }
    none [] rfl rfl rfl rfl rfl rfl).1

/-- A member of the list on which `f` answers makes `findSome?` answer. -/
theorem findSome?_isSome_of_mem {α β : Type _} (f : α → Option β) {l : List α} {x : α}
    (hx : x ∈ l) {v : β} (hfx : f x = some v) :
    ∃ w, l.findSome? f = some w := by
  induction l with
  | nil => cases hx
  | cons a as ih =>
    cases hfa : f a with
    | some b => exact ⟨b, by rw [List.findSome?_cons, hfa]⟩
    | none =>
      rcases List.mem_cons.mp hx with h | h
      · rw [h, hfa] at hfx
        cases hfx
      · obtain ⟨w, hw⟩ := ih h
        exact ⟨w, by rw [List.findSome?_cons, hfa, hw]⟩

/-- C3: a script whose AST contains an import statement of any form —
top level or nested arbitrarily deep — is rejected by `validate_code` with
`is_valid = False` and a violation message. -/
theorem import_statement_always_rejected (body : List PyStmt) (n : PyNode)
    (hmem : n ∈ moduleNodes body) (himp : isImportNode n = true) :
    ∃ msg, validateAst body = (false, msg) := by
  have hviol : ∃ m, nodeViolation n = some m := by
    cases n with
    | stmt s =>
      cases s with
      | importS names => exact ⟨_, rfl⟩
      | importFrom m names => exact ⟨_, rfl⟩
      | deleteS t => simp [isImportNode] at himp
      | globalS t => simp [isImportNode] at himp
      | nonlocalS t => simp [isImportNode] at himp
      | assign t v => simp [isImportNode] at himp
      | exprS v => simp [isImportNode] at himp
      | returnS v => simp [isImportNode] at himp
      | ifS t b o => simp [isImportNode] at himp
      | functionDef nm args b => simp [isImportNode] at himp
    | expr e => simp [isImportNode] at himp
  obtain ⟨m, hm⟩ := hviol
  obtain ⟨w, hw⟩ := findSome?_isSome_of_mem nodeViolation hmem hm
  exact ⟨w, by unfold validateAst; rw [hw]⟩

/-- Witness for C3: a script defining the entry point with a nested
`import os` is rejected. -/
theorem import_statement_always_rejected_witness :
    (validateAst [PyStmt.functionDef "apply" [] [.importS ["os"]]]).1 = false := by
  obtain ⟨msg, hmsg⟩ := import_statement_always_rejected
    [PyStmt.functionDef "apply" [] [.importS ["os"]]]
    (.stmt (.importS ["os"]))
    (List.Mem.tail _ (List.Mem.head _)) rfl
  rw [hmsg]

/-- C4: `execute_law` is total into result dicts: every run returns either
a success carrying a result value or a failure carrying an error message
(never a raised exception), and both exception paths — a raise during
compile/exec and a raise inside the entry point call — come back as
failures with an error message. -/
theorem executor_always_returns_result {α : Type} (parsed : Except String (List PyStmt))
    (outcome : ScriptOutcome α) (m : String) :
    (((executeLaw parsed outcome).success = true ∧
        (executeLaw parsed outcome).error = none ∧
        (executeLaw parsed outcome).result.isSome = true) ∨
      ((executeLaw parsed outcome).success = false ∧
        (executeLaw parsed outcome).error.isSome = true ∧
        (executeLaw parsed outcome).result = none)) ∧
    (executeLaw parsed (ScriptOutcome.raises m) : ExecutionResult α).success = false ∧
    (executeLaw parsed (ScriptOutcome.completes (some (.raises m))) :
        ExecutionResult α).success = false := by
  refine ⟨?_, ?_, ?_⟩
  · unfold executeLaw
    cases hv : (validateCode parsed).1 with
    | false => right; simp [hv]
    | true =>
      cases outcome with
      | raises msg => right; simp [hv]
      | completes ap =>
        cases ap with
        | none => right; simp [hv]
        | some ao =>
          cases ao with
          | raises msg => right; simp [hv]
          | returns value => left; simp [hv]
  · unfold executeLaw
    cases hv : (validateCode parsed).1 <;> simp [hv]
  · unfold executeLaw
    cases hv : (validateCode parsed).1 <;> simp [hv]

/-- C7: a script passing the validator whose exec defines the entry point
and whose zero-argument call returns a value executes successfully with
exactly that value as the result. -/
theorem valid_script_executes_to_result {α : Type} (body : List PyStmt) (v : α)
    (hvalid : (validateAst body).1 = true) :
    executeLaw (.ok body) (.completes (some (.returns v))) =
      { success := true, error := none, result := some v } := by
  unfold executeLaw validateCode
  simp [hvalid]

/-- Witness for C7: the spec §8 deny-decision script shape, returning an
opaque decision value. -/
theorem valid_script_executes_to_result_witness :
    executeLaw
      (.ok [PyStmt.functionDef "apply" []
        [.returnS (some (.dictE [.constant "action"] [.constant "deny"]))]])
      (.completes (some (.returns "decision"))) =
      { success := true, error := none, result := some "decision" } :=
  valid_script_executes_to_result _ _ rfl

/-- C9: on a batch of two registered-active matching laws whose first
script raises at runtime while the second returns a value, `trigger_laws`
returns two tagged results: a failure with an error message for the first
law and a success for the second — the first failure does not prevent the
second evaluation. -/
theorem trigger_batch_isolates_failures {α : Type} (id1 id2 : Int)
    (law1 law2 : RegisteredLaw α) (ctx : LawContext) (m : String) (v : α)
    (h1a : law1.active = true) (h2a : law2.active = true)
    (h1t : law1.triggers.any (fun t => shouldTrigger t ctx) = true)
    (h2t : law2.triggers.any (fun t => shouldTrigger t ctx) = true)
    (h1v : (validateCode law1.parsed).1 = true)
    (h1o : law1.outcome ctx = .raises m)
    (h2v : (validateCode law2.parsed).1 = true)
    (h2o : law2.outcome ctx = .completes (some (.returns v))) :
    triggerLaws [(id1, law1), (id2, law2)] ctx =
      [{ success := false, error := some ("Ошибка выполнения: " ++ m),
         result := none, law_id := id1 },
       { success := true, error := none, result := some v, law_id := id2 }] := by
  rw [triggerLaws, if_neg (by simp [h1a]), if_pos h1t,
    triggerLaws, if_neg (by simp [h2a]), if_pos h2t, triggerLaws]
  rw [h1o, h2o]
  unfold executeLaw
  simp [h1v, h2v, tagResult]

/-- Witness for C9: two concrete action-triggered laws on a vote event, the
first raising, the second returning a value. -/
theorem trigger_batch_isolates_failures_witness :
    triggerLaws
      [((1 : Int),
        { parsed := .ok [PyStmt.functionDef "apply" [] []],
          triggers := [LawTrigger.actionTrigger ["vote"]],
          active := true,
          outcome := fun _ => ScriptOutcome.raises "boom" }),
       ((2 : Int),
        { parsed := .ok [PyStmt.functionDef "apply" [] []],
          triggers := [LawTrigger.actionTrigger ["vote"]],
          active := true,
          outcome := fun _ =>
            ScriptOutcome.completes (some (ApplyOutcome.returns "allow")) })]
      { user_id := 7, action := "vote", timestamp := 0, data := [] } =
      [{ success := false, error := some ("Ошибка выполнения: " ++ "boom"),
         result := none, law_id := 1 },
       { success := true, error := none, result := some "allow", law_id := 2 }] :=
  trigger_batch_isolates_failures 1 2 _ _ _ "boom" "allow"
    rfl rfl rfl rfl rfl rfl rfl rfl

/-! ## Stable-sort lemmas for the rule index (claim C8) -/

/-- Membership through the insertion step. -/
theorem mem_insertByPriorityDesc {l : List ActionRule} {r x : ActionRule} :
    x ∈ insertByPriorityDesc l r ↔ x ∈ l ∨ x = r := by
  induction l with
  | nil => simp [insertByPriorityDesc]
  | cons y ys ih =>
    rw [insertByPriorityDesc]
    split
    · simp only [List.mem_cons, ih]
      tauto
    · simp only [List.mem_cons]
      tauto

/-- The insertion step preserves descending sortedness. -/
theorem sortedDesc_insert {l : List ActionRule} (hl : SortedDesc l) (r : ActionRule) :
    SortedDesc (insertByPriorityDesc l r) := by
  induction l with
  | nil => simp [insertByPriorityDesc, SortedDesc]
  | cons y ys ih =>
    obtain ⟨hy, hys⟩ := List.pairwise_cons.mp hl
    rw [insertByPriorityDesc]
    split
    · rename_i hle
      rw [SortedDesc, List.pairwise_cons]
      refine ⟨fun z hz => ?_, ih hys⟩
      rcases mem_insertByPriorityDesc.mp hz with h | h
      · exact hy z h
      · rw [h]; exact hle
    · rename_i hgt
      push_neg at hgt
      rw [SortedDesc, List.pairwise_cons]
      refine ⟨fun z hz => ?_, hl⟩
      rcases List.mem_cons.mp hz with h | h
      · rw [h]; exact le_of_lt hgt
      · exact le_trans (hy z h) (le_of_lt hgt)

/-- The modelled Python sort produces a descending-sorted list. -/
theorem sortedDesc_pySort (l : List ActionRule) :
    SortedDesc (pySortByPriorityDesc l) := by
  suffices h : ∀ acc, SortedDesc acc → SortedDesc (l.foldl insertByPriorityDesc acc) from
    h [] (by simp [SortedDesc])
  induction l with
  | nil => exact fun acc h => h
  | cons y ys ih => exact fun acc h => ih _ (sortedDesc_insert h y)

/-- The modelled Python sort permutes: membership is preserved. -/
theorem mem_pySort {l : List ActionRule} {x : ActionRule} :
    x ∈ pySortByPriorityDesc l ↔ x ∈ l := by
  suffices h : ∀ acc, x ∈ l.foldl insertByPriorityDesc acc ↔ x ∈ acc ∨ x ∈ l by
    simpa using h []
  induction l with
  | nil => simp
  | cons y ys ih =>
    intro acc
    rw [List.foldl_cons, ih, mem_insertByPriorityDesc]
    simp only [List.mem_cons]
    tauto

/-- Inserting an element whose priority is at most every list priority
appends it at the end. -/
theorem insert_append_of_all_ge {l : List ActionRule} {r : ActionRule}
    (h : ∀ y ∈ l, r.priority ≤ y.priority) :
    insertByPriorityDesc l r = l ++ [r] := by
  induction l with
  | nil => rfl
  | cons y ys ih =>
    rw [insertByPriorityDesc, if_pos (h y (List.mem_cons_self y ys)),
      ih fun z hz => h z (List.mem_cons_of_mem y hz)]
    rfl

/-- Sorting after appending one element is one insertion into the sorted
prefix. -/
theorem pySort_append_single (l : List ActionRule) (r : ActionRule) :
    pySortByPriorityDesc (l ++ [r]) =
      insertByPriorityDesc (pySortByPriorityDesc l) r := by
  unfold pySortByPriorityDesc
  rw [List.foldl_append]
  rfl

/-- A sorted list is a fixed point of the modelled sort. -/
theorem pySort_of_sorted {l : List ActionRule} (h : SortedDesc l) :
    pySortByPriorityDesc l = l := by
  induction l using List.reverseRecOn with
  | nil => rfl
  | append_singleton xs x ih =>
    have hxs : SortedDesc xs :=
      List.Pairwise.sublist (List.sublist_append_left xs [x]) h
    rw [pySort_append_single, ih hxs]
    apply insert_append_of_all_ge
    intro y hy
    have := (List.pairwise_append.mp h).2.2
    exact this y hy x (List.mem_singleton.mpr rfl)

/-- The modelled sort is idempotent. -/
theorem pySort_idem (l : List ActionRule) :
    pySortByPriorityDesc (pySortByPriorityDesc l) = pySortByPriorityDesc l :=
  pySort_of_sorted (sortedDesc_pySort l)

/-- Inserting a rule whose check is false does not change the answer of the
rule loop. -/
theorem checkPermissionList_insert_false (user : Option PyUser) (ctx : PermContext)
    {x : ActionRule} (hx : checkRule user x ctx = some false) (l : List ActionRule) :
    checkPermissionList user ctx (insertByPriorityDesc l x) =
      checkPermissionList user ctx l := by
  induction l with
  | nil => simp [insertByPriorityDesc, checkPermissionList, hx]
  | cons y ys ih =>
    rw [insertByPriorityDesc]
    split
    · simp only [checkPermissionList]
      cases hy : checkRule user y ctx with
      | none => rfl
      | some b => cases b with
        | true => rfl
        | false => exact ih
    · simp only [checkPermissionList, hx]

/-- Inserting a duplicate of a member into a sorted rule list does not
change the answer of the rule loop: the copy lands behind the original, so
the first truthy rule is unchanged. -/
theorem checkPermissionList_insert_dup (user : Option PyUser) (ctx : PermContext)
    {L : List ActionRule} {x : ActionRule} (hs : SortedDesc L) (hx : x ∈ L) :
    checkPermissionList user ctx (insertByPriorityDesc L x) =
      checkPermissionList user ctx L := by
  induction L with
  | nil => cases hx
  | cons y ys ih =>
    obtain ⟨hy, hys⟩ := List.pairwise_cons.mp hs
    rw [insertByPriorityDesc]
    split
    · rename_i hle
      simp only [checkPermissionList]
      cases hcy : checkRule user y ctx with
      | none => rfl
      | some b => cases b with
        | true => rfl
        | false =>
          rcases List.mem_cons.mp hx with hxy | hxys
          · exact checkPermissionList_insert_false user ctx (by rw [hxy]; exact hcy) ys
          · exact ih hys hxys
    · rename_i hgt
      push_neg at hgt
      exfalso
      rcases List.mem_cons.mp hx with hxy | hxys
      · rw [hxy] at hgt; exact lt_irrefl _ hgt
      · exact absurd (hy x hxys) (not_le.mpr hgt)

/-- Appending to a rule sequence only duplicates of rules already in it
does not change the answer of the rule loop on the sorted result. -/
theorem checkPermissionList_pySort_dup_append (user : Option PyUser)
    (ctx : PermContext) (s : List ActionRule) :
    ∀ t : List ActionRule, (∀ x ∈ t, x ∈ s) →
      checkPermissionList user ctx (pySortByPriorityDesc (s ++ t)) =
        checkPermissionList user ctx (pySortByPriorityDesc s) := by
  intro t
  induction t using List.reverseRecOn with
  | nil => intro _; rw [List.append_nil]
  | append_singleton t' x ih =>
    intro h
    rw [← List.append_assoc, pySort_append_single]
    have hx : x ∈ pySortByPriorityDesc (s ++ t') :=
      mem_pySort.mpr (List.mem_append_left t'
        (h x (List.mem_append_right t' (List.mem_singleton.mpr rfl))))
    rw [checkPermissionList_insert_dup user ctx (sortedDesc_pySort _) hx]
    exact ih fun z hz => h z (List.mem_append_left [x] hz)

/-- Registration folds compose over appended rule sequences. -/
theorem registerRules_append (rules : String → List ActionRule)
    (rs1 rs2 : List ActionRule) :
    registerRules rules (rs1 ++ rs2) = registerRules (registerRules rules rs1) rs2 := by
  unfold registerRules
  rw [List.foldl_append]

/-- The index built from the empty enforcer holds, at every action name, the
stable descending sort of the rules registered for that action, in
registration order. -/
theorem registerRules_empty_apply (rs : List ActionRule) (a : String) :
    registerRules emptyRules rs a =
      pySortByPriorityDesc (rs.filter (fun r => decide (a = r.action_name))) := by
  induction rs using List.reverseRecOn with
  | nil => rfl
  | append_singleton rs' r ih =>
    rw [registerRules_append]
    show addRuleToIndex (registerRules emptyRules rs') r a = _
    rw [addRuleToIndex, List.filter_append]
    by_cases hc : a = r.action_name
    · have hfr : List.filter (fun x => decide (a = x.action_name)) [r] = [r] := by
        simp [hc]
      rw [if_pos hc, ih, hfr, pySort_append_single, pySort_idem, ← pySort_append_single]
    · have hfr : List.filter (fun x => decide (a = x.action_name)) [r] = [] := by
        simp [hc]
      rw [if_neg hc, ih, hfr, List.append_nil]

/-- The load loop is the registration fold of the record-derived rule
sequence, whenever that sequence is defined; the sequence itself does not
depend on the starting index. -/
theorem loadLaws_eq_registerRules (fuel : Nat) (config : LanguageConfig)
    (records : List (String × String)) :
    ∀ rules, loadLawsFromDb fuel config rules records =
      (recordsRules fuel config records).map (fun rs => registerRules rules rs) := by
  induction records with
  | nil => intro rules; rfl
  | cons rec rest ih =>
    intro rules
    obtain ⟨law_name, law_text⟩ := rec
    rw [loadLawsFromDb, recordsRules]
    unfold addLaw
    cases hp : universalParse fuel config law_text with
    | none => rfl
    | some parsed =>
      by_cases hv : parsed.is_valid
      · simp only [hv, Bool.not_true, Bool.false_eq_true, if_false, ih]
        cases hr : recordsRules fuel config rest with
        | none => rfl
        | some rs =>
          simp only [Option.map_some']
          rw [registerRules_append]
      · simp only [Bool.not_eq_true] at hv
        simp only [hv, Bool.not_false, if_true, ih]

/-- C8: reloading from the same record set is idempotent for permission
checking: whenever two successive `load_laws_from_db` passes over identical
records complete, the resulting index answers every
(subject, action, context) query exactly as the index of a single pass —
each duplicated rule is re-sorted behind its first copy, so the first
matching rule never changes. -/
theorem reload_preserves_check_permission (fuel : Nat) (config : LanguageConfig)
    (records : List (String × String)) (user : Option PyUser) (action : String)
    (ctx : PermContext) (idx1 idx2 : String → List ActionRule)
    (h1 : loadLawsFromDb fuel config emptyRules records = some idx1)
    (h2 : loadLawsFromDb fuel config idx1 records = some idx2) :
    checkPermission idx2 user action ctx = checkPermission idx1 user action ctx := by
  rw [loadLaws_eq_registerRules] at h1 h2
  cases hr : recordsRules fuel config records with
  | none => rw [hr] at h1; cases h1
  | some rs =>
    rw [hr, Option.map_some'] at h1 h2
    injection h1 with h1
    injection h2 with h2
    rw [← h2, ← h1, ← registerRules_append,
      checkPermission_eq_list, checkPermission_eq_list,
      registerRules_empty_apply, registerRules_empty_apply, List.filter_append]
    exact checkPermissionList_pySort_dup_append user ctx _ _ fun x hx => hx

/-- Witness for C8: a record set whose law parses (a lone SUBJECT token)
but is invalid, so both passes finish; the reloaded index answers as the
once-loaded index. -/
theorem reload_preserves_check_permission_witness :
    checkPermission emptyRules userWithParty "vote" [] =
      checkPermission emptyRules userWithParty "vote" [] :=
  reload_preserves_check_permission 4 defaultRussianConfig
    [("subject-only", "Пользователь")] userWithParty "vote" [] emptyRules emptyRules
    rfl rfl

end PoliticGame
